import Mathlib

/-!
Formal model of `src/main.py` of the EventCamera repository.

The program is a training/evaluation script for an optical-flow network.
Its core pieces, embedded here, are:

* `compute_multiscale_epe_error` (src/main.py lines 29-36): the multi-scale
  endpoint-error loss over a dict of per-scale flow predictions;
* the bilinear resize it calls,
  `torch.nn.functional.interpolate(gt, scale_factor, mode='bilinear',
  align_corners=False)`, modelled by `interpolate`;
* the epoch/batch training loop with its `StepLR(step_size=10, gamma=0.1)`
  schedule (lines 68-89), modelled by `runTraining`;
* the checkpoint save/load and the evaluation/export loop (lines 91-112),
  modelled by `mainRun` and `evalExport`.

Tensors carry exact rational entries; the real-valued loss uses `Real.sqrt`
for the Euclidean norm.  The external network (`EVFlowNet`) and optimizer are
opaque: they enter only through an abstract update function and an abstract
batch-to-prediction function, with the shape contracts the spec states.
-/

/-- A 4-dimensional torch tensor (batch, channel, height, width) with
rational entries.  Entries are a total function on natural indices; only
indices below the recorded bounds are meaningful. -/
@[ext]
structure Tensor4 where
  B : ℕ
  C : ℕ
  H : ℕ
  W : ℕ
  data : ℕ → ℕ → ℕ → ℕ → ℚ

/-- Shape equality of two tensors; torch elementwise subtraction of two
4-d tensors of these shapes succeeds exactly when it holds (broadcasting
aside, which never applies to the equal-sized flow tensors of this program). -/
def sameShape (t u : Tensor4) : Prop :=
  t.B = u.B ∧ t.C = u.C ∧ t.H = u.H ∧ t.W = u.W

instance (t u : Tensor4) : Decidable (sameShape t u) := by
  unfold sameShape; infer_instance

/-- Source coordinate of torch bilinear interpolation with
`align_corners=False` when an explicit `scale_factor` s is passed:
`(dst + 0.5) / s - 0.5`, clamped below at 0
(aten `area_pixel_compute_source_index` with `rheight = 1/s`). -/
def srcCoord (s : ℚ) (dst : ℕ) : ℚ :=
  max 0 (((dst : ℚ) + 1 / 2) / s - 1 / 2)

/-- One-dimensional linear interpolation along an axis of length `len`, as in
the aten bilinear kernel: lower index `⌊src⌋`, upper index one more unless
clamped at the last valid index, weights `1 - λ` and `λ` with
`λ = src - ⌊src⌋`. -/
def lerp1 (len : ℕ) (s : ℚ) (dst : ℕ) (g : ℕ → ℚ) : ℚ :=
  let src := srcCoord s dst
  let i0 := ⌊src⌋₊
  let i1 := if i0 < len - 1 then i0 + 1 else i0
  let lam := src - (i0 : ℚ)
  (1 - lam) * g i0 + lam * g i1

/-- `torch.nn.functional.interpolate(t, scale_factor=s, mode='bilinear',
align_corners=False)`: both spatial sizes become `⌊size * s⌋` and the value at
an output pixel is the separable linear interpolation of the input at the
source coordinates, batch and channel dimensions untouched. -/
def interpolate (t : Tensor4) (s : ℚ) : Tensor4 where
  B := t.B
  C := t.C
  H := ⌊(t.H : ℚ) * s⌋₊
  W := ⌊(t.W : ℚ) * s⌋₊
  data := fun b c y x =>
    lerp1 t.H s y (fun i => lerp1 t.W s x (fun j => t.data b c i j))

/-- `scale_factor = pred_flow.shape[2] / gt_flow.shape[2]` (src/main.py
line 32): the ratio of heights; widths are never consulted. -/
def scaleFactorOf (pred_flow gt_flow : Tensor4) : ℚ :=
  (pred_flow.H : ℚ) / (gt_flow.H : ℚ)

/-- `torch.mean(torch.norm(p - q, p=2, dim=1))` for same-shaped tensors:
per-pixel Euclidean norm of the difference across the channel dimension,
then the mean over batch, height and width. -/
noncomputable def epeVal (p q : Tensor4) : ℝ :=
  (∑ b : Fin p.B, ∑ y : Fin p.H, ∑ x : Fin p.W,
      Real.sqrt (∑ c : Fin p.C, ((p.data b c y x - q.data b c y x : ℚ) : ℝ) ^ 2))
    / ((p.B : ℝ) * (p.H : ℝ) * (p.W : ℝ))

/-- A Python scalar inside the loss computation: `total_loss` starts as the
host float `0.0` and becomes a torch scalar tensor after the first
`total_loss += epe`. -/
inductive PyVal where
  | pyfloat (x : ℝ)
  | pytensor (x : ℝ)

/-- Numeric value of the scalar, whichever host type carries it. -/
def PyVal.val : PyVal → ℝ
  | .pyfloat x => x
  | .pytensor x => x

/-- Whether `.backward()` can be invoked on the value: torch tensors support
it, plain host floats do not. -/
def PyVal.canBackward : PyVal → Bool
  | .pyfloat _ => false
  | .pytensor _ => true

/-- One iteration of the loop body of `compute_multiscale_epe_error`
(src/main.py lines 31-35): scale factor from the height ratio, bilinear
resize of the ground truth, endpoint error, accumulation.  `none` models the
shape-mismatch error `pred_flow - scaled_gt_flow` would raise. -/
noncomputable def epeStep (gt_flow : Tensor4) (acc : Option PyVal)
    (pf : String × Tensor4) : Option PyVal :=
  match acc with
  | none => none
  | some t =>
    let pred_flow := pf.2
    let scaled_gt_flow := interpolate gt_flow (scaleFactorOf pred_flow gt_flow)
    if sameShape pred_flow scaled_gt_flow then
      some (PyVal.pytensor (t.val + epeVal pred_flow scaled_gt_flow))
    else none

/-- `compute_multiscale_epe_error` (src/main.py lines 29-36).  The dict of
predictions is an insertion-ordered association list; `total_loss` starts as
the float `0.0` and each scale adds its scalar endpoint error. -/
noncomputable def compute_multiscale_epe_error
    (pred_flows : List (String × Tensor4)) (gt_flow : Tensor4) : Option PyVal :=
  pred_flows.foldl (epeStep gt_flow) (some (PyVal.pyfloat 0))

/-- The loss exactly as the specification words it (spec section 4.2): the
unweighted sum, over the scales in order, of the mean endpoint error between
the prediction and the ground truth bilinearly downsampled, without corner
alignment, at the height-ratio scale factor. -/
noncomputable def specMultiscaleLoss
    (pred_flows : List (String × Tensor4)) (gt_flow : Tensor4) : ℝ :=
  (pred_flows.map (fun pf =>
      epeVal pf.2 (interpolate gt_flow (scaleFactorOf pf.2 gt_flow)))).sum

/-- Precondition under which every elementwise subtraction inside the loss is
well-formed: each prediction has exactly the shape of the correspondingly
resized ground truth. -/
def shapesOk (gt_flow : Tensor4) (pred_flows : List (String × Tensor4)) : Prop :=
  ∀ pf ∈ pred_flows, sameShape pf.2 (interpolate gt_flow (scaleFactorOf pf.2 gt_flow))

instance (gt_flow : Tensor4) (pred_flows : List (String × Tensor4)) :
    Decidable (shapesOk gt_flow pred_flows) := by
  unfold shapesOk; infer_instance

/-- Tensor of the given shape with all entries zero. -/
def zeros (b c h w : ℕ) : Tensor4 :=
  ⟨b, c, h, w, fun _ _ _ _ => 0⟩

/-- Tensor of the given shape with every entry equal to `v`. -/
def constT (b c h w : ℕ) (v : ℚ) : Tensor4 :=
  ⟨b, c, h, w, fun _ _ _ _ => v⟩

/-- `torch.cat((t, u), dim=0)` as used by the evaluation loop: leading
dimensions add, the remaining dimensions are the operands' (taken from `u`
when `t` is the initial empty `torch.tensor([])`). -/
def cat0 (t u : Tensor4) : Tensor4 where
  B := t.B + u.B
  C := if t.B = 0 then u.C else t.C
  H := if t.B = 0 then u.H else t.H
  W := if t.B = 0 then u.W else t.W
  data := fun b c h w => if b < t.B then t.data b c h w else u.data (b - t.B) c h w

/-- The initial accumulator `torch.tensor([])` of the evaluation loop
(src/main.py line 101). -/
def emptyFlow : Tensor4 := ⟨0, 0, 0, 0, fun _ _ _ _ => 0⟩

/-- Evaluation/export loop (src/main.py lines 101-108): run the network on
each test batch in order and concatenate the finest-scale outputs along
dimension 0. -/
def evalExport (net : Tensor4 → Tensor4) (batches : List Tensor4) : Tensor4 :=
  batches.foldl (fun flow b => cat0 flow (net b)) emptyFlow

/-- Leading dimensions of the batches a DataLoader with `drop_last=False`
yields over `M` samples at batch size `bs`: full batches of `bs`, then the
remainder batch when `M` is not a multiple of `bs`. -/
def loaderSizes (M bs : ℕ) : List ℕ :=
  List.replicate (M / bs) bs ++ (if M % bs = 0 then [] else [M % bs])

/-- State of `torch.optim.lr_scheduler.StepLR(optimizer, step_size=10,
gamma=0.1)` (src/main.py line 69): `last_epoch` counts the completed
`scheduler.step()` calls since construction. -/
structure SchedState where
  last_epoch : ℕ
  lr : ℝ

/-- `scheduler.step()` for `StepLR(step_size=10, gamma=0.1)`: increment
`last_epoch` and multiply the learning rate by `0.1` exactly when the new
`last_epoch` is a multiple of `10`. -/
noncomputable def schedStep (s : SchedState) : SchedState :=
  ⟨s.last_epoch + 1,
   if (s.last_epoch + 1) % 10 = 0 then s.lr * (1 / 10) else s.lr⟩

/-- One epoch of the batch loop (src/main.py lines 73-86): `total_loss`
starts at `0`; each batch drives the opaque forward/backward/optimizer
update `upd` (which returns the updated parameters and the batch's scalar
`loss.item()`) and adds the scalar loss to the accumulator. -/
def runEpoch {P β : Type} (upd : P → β → P × ℝ) (p : P) (batches : List β) : P × ℝ :=
  batches.foldl (fun acc b => ((upd acc.1 b).1, acc.2 + (upd acc.1 b).2)) (p, 0)

/-- The scalar losses of an epoch's batches in order, following the
parameter updates. -/
def epochLosses {P β : Type} (upd : P → β → P × ℝ) : P → List β → List ℝ
  | _, [] => []
  | p, b :: bs => (upd p b).2 :: epochLosses upd (upd p b).1 bs

/-- State after some number of training epochs: current parameters,
scheduler state, and the mean losses printed so far (src/main.py line 87). -/
structure TrainState (P : Type) where
  params : P
  sched : SchedState
  reports : List ℝ

/-- Training loop (src/main.py lines 71-89): per epoch, run every batch with
a zero-initialized loss accumulator, report accumulator divided by the
number of batches, then advance the scheduler by one step; repeat for the
configured number of epochs. -/
noncomputable def runTraining {P β : Type} (upd : P → β → P × ℝ)
    (batches : List β) (p : P) (lr0 : ℝ) : ℕ → TrainState P
  | 0 => ⟨p, ⟨0, lr0⟩, []⟩
  | e + 1 =>
    let st := runTraining upd batches p lr0 e
    let r := runEpoch upd st.params batches
    ⟨r.1, schedStep st.sched, st.reports ++ [r.2 / (batches.length : ℝ)]⟩

/-- Modelled from the spec (section 4.4; `torch.save`'s file format is an
external collaborator): the checkpoint written by `torch.save` holds the
model's parameter state and the serialization round-trip restores it
exactly. -/
structure Checkpoint (P : Type) where
  saved : P

/-- `torch.save(model.state_dict(), model_path)` (src/main.py line 96). -/
def torchSave {P : Type} (p : P) : Checkpoint P := ⟨p⟩

/-- `model.load_state_dict(torch.load(model_path))` (src/main.py line 99),
restoring the saved parameters. -/
def torchLoad {P : Type} (c : Checkpoint P) : P := c.saved

/-- End of the run (src/main.py lines 72-112): train for the configured
number of epochs, save a checkpoint of the trained parameters, reload it,
and run the evaluation/export loop with the reloaded parameters; `net p`
maps a test batch to the finest-scale (flow3) output of the external model
with parameters `p`. -/
noncomputable def mainRun {P β : Type} (upd : P → β → P × ℝ)
    (trainBatches : List β) (p0 : P) (lr0 : ℝ) (epochs : ℕ)
    (net : P → Tensor4 → Tensor4) (testBatches : List Tensor4) :
    Checkpoint P × Tensor4 :=
  let st := runTraining upd trainBatches p0 lr0 epochs
  let ck := torchSave st.params
  (ck, evalExport (net (torchLoad ck)) testBatches)

/-- Ground truth of batch 1, 2 channels, height 4, width 3, used to probe
the loss's shape handling. -/
def gtT10 : Tensor4 := zeros 1 2 4 3

/-- Prediction of batch 1, 2 channels, height 2, width 1: its height halves
the ground truth's while its width is a third of the ground truth's. -/
def predT10 : Tensor4 := zeros 1 2 2 1

section LossLemmas

theorem foldl_epeStep_none (gt : Tensor4) (L : List (String × Tensor4)) :
    L.foldl (epeStep gt) none = none := by
  induction L with
  | nil => rfl
  | cons pf L ih => simpa [epeStep] using ih

theorem foldl_epeStep_pytensor (gt : Tensor4) (L : List (String × Tensor4)) :
    ∀ v : ℝ, shapesOk gt L →
      L.foldl (epeStep gt) (some (PyVal.pytensor v))
        = some (PyVal.pytensor (v + specMultiscaleLoss L gt)) := by
  induction L with
  | nil => intro v _; simp [specMultiscaleLoss]
  | cons pf L ih =>
    intro v h
    have hpf : sameShape pf.2 (interpolate gt (scaleFactorOf pf.2 gt)) :=
      h pf (List.mem_cons_self pf L)
    have hL : shapesOk gt L := fun q hq => h q (List.mem_cons_of_mem pf hq)
    have hstep : epeStep gt (some (PyVal.pytensor v)) pf
        = some (PyVal.pytensor (v + epeVal pf.2
            (interpolate gt (scaleFactorOf pf.2 gt)))) := by
      simp [epeStep, hpf, PyVal.val]
    calc (pf :: L).foldl (epeStep gt) (some (PyVal.pytensor v))
        = L.foldl (epeStep gt) (epeStep gt (some (PyVal.pytensor v)) pf) := rfl
      _ = some (PyVal.pytensor ((v + epeVal pf.2
            (interpolate gt (scaleFactorOf pf.2 gt))) + specMultiscaleLoss L gt)) := by
            rw [hstep]; exact ih _ hL
      _ = some (PyVal.pytensor (v + specMultiscaleLoss (pf :: L) gt)) := by
            simp [specMultiscaleLoss]; ring

theorem loss_eq_of_shapesOk (gt : Tensor4) (L : List (String × Tensor4))
    (h : shapesOk gt L) :
    compute_multiscale_epe_error L gt
      = some (if L.isEmpty then PyVal.pyfloat 0
              else PyVal.pytensor (specMultiscaleLoss L gt)) := by
  cases L with
  | nil => rfl
  | cons pf L =>
    have hpf : sameShape pf.2 (interpolate gt (scaleFactorOf pf.2 gt)) :=
      h pf (List.mem_cons_self pf L)
    have hL : shapesOk gt L := fun q hq => h q (List.mem_cons_of_mem pf hq)
    have hstep : epeStep gt (some (PyVal.pyfloat 0)) pf
        = some (PyVal.pytensor (0 + epeVal pf.2
            (interpolate gt (scaleFactorOf pf.2 gt)))) := by
      simp [epeStep, hpf, PyVal.val]
    calc compute_multiscale_epe_error (pf :: L) gt
        = L.foldl (epeStep gt) (epeStep gt (some (PyVal.pyfloat 0)) pf) := rfl
      _ = some (PyVal.pytensor ((0 + epeVal pf.2
            (interpolate gt (scaleFactorOf pf.2 gt))) + specMultiscaleLoss L gt)) := by
            rw [hstep]; exact foldl_epeStep_pytensor gt L _ hL
      _ = _ := by simp [specMultiscaleLoss]

theorem shapesOk_of_foldl_some (gt : Tensor4) :
    ∀ (L : List (String × Tensor4)) (t : PyVal) (r : PyVal),
      L.foldl (epeStep gt) (some t) = some r → shapesOk gt L := by
  intro L
  induction L with
  | nil => intro t r _; exact fun pf hpf => absurd hpf (List.not_mem_nil pf)
  | cons pf L ih =>
    intro t r hfold
    by_cases hpf : sameShape pf.2 (interpolate gt (scaleFactorOf pf.2 gt))
    · have hstep : epeStep gt (some t) pf
          = some (PyVal.pytensor (t.val + epeVal pf.2
              (interpolate gt (scaleFactorOf pf.2 gt)))) := by
        simp [epeStep, hpf]
      rw [List.foldl_cons, hstep] at hfold
      intro q hq
      rcases List.mem_cons.mp hq with hq | hq
      · exact hq ▸ hpf
      · exact ih _ r hfold q hq
    · have hstep : epeStep gt (some t) pf = none := by simp [epeStep, hpf]
      rw [List.foldl_cons, hstep, foldl_epeStep_none] at hfold
      exact absurd hfold (by simp)

theorem epeVal_nonneg (p q : Tensor4) : 0 ≤ epeVal p q := by
  unfold epeVal
  apply div_nonneg
  · refine Finset.sum_nonneg fun b _ => Finset.sum_nonneg fun y _ =>
      Finset.sum_nonneg fun x _ => Real.sqrt_nonneg _
  · positivity

theorem specMultiscaleLoss_nonneg (L : List (String × Tensor4)) (gt : Tensor4) :
    0 ≤ specMultiscaleLoss L gt := by
  unfold specMultiscaleLoss
  apply List.sum_nonneg
  intro x hx
  rcases List.mem_map.mp hx with ⟨pf, _, rfl⟩
  exact epeVal_nonneg _ _

theorem loss_val_of_shapesOk (gt : Tensor4) (L : List (String × Tensor4))
    (h : shapesOk gt L) :
    ∃ r, compute_multiscale_epe_error L gt = some r ∧
      r.val = specMultiscaleLoss L gt := by
  refine ⟨_, loss_eq_of_shapesOk gt L h, ?_⟩
  cases L with
  | nil => simp [specMultiscaleLoss, PyVal.val]
  | cons pf L => simp [PyVal.val]

end LossLemmas

section InterpLemmas

theorem srcCoord_one (dst : ℕ) : srcCoord 1 dst = (dst : ℚ) := by
  unfold srcCoord
  have h : ((dst : ℚ) + 1 / 2) / 1 - 1 / 2 = (dst : ℚ) := by ring
  rw [h]
  exact max_eq_right (Nat.cast_nonneg dst)

theorem lerp1_one (len dst : ℕ) (g : ℕ → ℚ) : lerp1 len 1 dst g = g dst := by
  simp [lerp1, srcCoord_one, Nat.floor_natCast]

theorem interpolate_one (t : Tensor4) : interpolate t 1 = t := by
  ext b c y x
  · rfl
  · rfl
  · show ⌊(t.H : ℚ) * 1⌋₊ = t.H
    rw [mul_one, Nat.floor_natCast]
  · show ⌊(t.W : ℚ) * 1⌋₊ = t.W
    rw [mul_one, Nat.floor_natCast]
  · show lerp1 t.H 1 y (fun i => lerp1 t.W 1 x (fun j => t.data b c i j))
        = t.data b c y x
    simp [lerp1_one]

theorem interpolate_ratio_dims (pred gt : Tensor4)
    (hgtH : gt.H ≠ 0) (hgtW : gt.W ≠ 0)
    (hratio : (pred.W : ℚ) / (gt.W : ℚ) = (pred.H : ℚ) / (gt.H : ℚ)) :
    (interpolate gt (scaleFactorOf pred gt)).H = pred.H ∧
    (interpolate gt (scaleFactorOf pred gt)).W = pred.W := by
  constructor
  · show ⌊(gt.H : ℚ) * ((pred.H : ℚ) / (gt.H : ℚ))⌋₊ = pred.H
    rw [mul_comm, div_mul_cancel₀ _ (Nat.cast_ne_zero.mpr hgtH), Nat.floor_natCast]
  · show ⌊(gt.W : ℚ) * ((pred.H : ℚ) / (gt.H : ℚ))⌋₊ = pred.W
    rw [← hratio, mul_comm, div_mul_cancel₀ _ (Nat.cast_ne_zero.mpr hgtW),
      Nat.floor_natCast]

end InterpLemmas

section EvalLemmas

theorem foldl_cat0_B (net : Tensor4 → Tensor4) :
    ∀ (batches : List Tensor4) (t : Tensor4),
      (batches.foldl (fun flow b => cat0 flow (net b)) t).B
        = t.B + (batches.map (fun b => (net b).B)).sum := by
  intro batches
  induction batches with
  | nil => intro t; simp
  | cons b bs ih =>
    intro t
    rw [List.foldl_cons, ih]
    simp [cat0]
    omega

theorem loaderSizes_sum (M bs : ℕ) : (loaderSizes M bs).sum = M := by
  by_cases h : M % bs = 0
  · simp [loaderSizes, h, List.sum_replicate, smul_eq_mul]
    exact Nat.div_mul_cancel (Nat.dvd_of_mod_eq_zero h)
  · simp [loaderSizes, h, List.sum_replicate, smul_eq_mul]
    rw [mul_comm]
    exact Nat.div_add_mod M bs

theorem loaderSizes_length (M bs : ℕ) :
    (loaderSizes M bs).length = M / bs + (if M % bs = 0 then 0 else 1) := by
  by_cases h : M % bs = 0 <;> simp [loaderSizes, h]

end EvalLemmas

section TrainLemmas

theorem runEpoch_snd {P β : Type} (upd : P → β → P × ℝ) :
    ∀ (batches : List β) (p : P),
      (runEpoch upd p batches).2 = (epochLosses upd p batches).sum := by
  have key : ∀ (batches : List β) (p : P) (a : ℝ),
      (batches.foldl
          (fun acc b => ((upd acc.1 b).1, acc.2 + (upd acc.1 b).2)) (p, a)).2
        = a + (epochLosses upd p batches).sum := by
    intro batches
    induction batches with
    | nil => intro p a; simp [epochLosses]
    | cons b bs ih =>
      intro p a
      rw [List.foldl_cons]
      show (bs.foldl _ ((upd p b).1, a + (upd p b).2)).2 = _
      rw [ih]
      simp [epochLosses]
      ring
  intro batches p
  have h := key batches p 0
  rw [runEpoch, h, zero_add]

end TrainLemmas

section Claims

/-- C1: for every non-empty mapping from scale name to predicted flow array
(whose per-scale resized ground truths match the predictions in shape, as
the elementwise subtraction requires) the Multi-Scale Loss Evaluator returns
the unweighted sum, over all scales, of the mean over batch, height and
width of the per-pixel Euclidean norm, across the 2-channel flow dimension,
of the difference between the prediction and the ground truth downsampled
to the prediction's resolution by bilinear interpolation without corner
alignment at scale factor h_s / h_gt. -/
theorem multiscale_loss_eq_spec (pred_flows : List (String × Tensor4))
    (gt_flow : Tensor4) (hne : pred_flows ≠ [])
    (hsh : shapesOk gt_flow pred_flows) :
    compute_multiscale_epe_error pred_flows gt_flow
      = some (PyVal.pytensor (specMultiscaleLoss pred_flows gt_flow)) := by
  rw [loss_eq_of_shapesOk gt_flow pred_flows hsh]
  cases pred_flows with
  | nil => exact absurd rfl hne
  | cons pf L => simp

/-- Witness for C1 at a concrete single-scale input of shape 1x2x1x1. -/
theorem multiscale_loss_eq_spec_witness :
    compute_multiscale_epe_error [("flow3", zeros 1 2 1 1)] (zeros 1 2 1 1)
      = some (PyVal.pytensor
          (specMultiscaleLoss [("flow3", zeros 1 2 1 1)] (zeros 1 2 1 1))) := by
  apply multiscale_loss_eq_spec
  · simp
  · intro pf hpf
    rcases List.mem_singleton.mp hpf with rfl
    have hs : scaleFactorOf (zeros 1 2 1 1) (zeros 1 2 1 1) = 1 := by
      show ((1 : ℕ) : ℚ) / ((1 : ℕ) : ℚ) = 1
      norm_num
    rw [hs, interpolate_one]
    exact ⟨rfl, rfl, rfl, rfl⟩

/-- C2: downsampling the ground truth inside the loss rescales only the
spatial grid: for a spatially-constant ground-truth flow field and any scale
factor, every pixel of the resized ground truth carries exactly the original
constant per-pixel value; the values are not multiplied by the scale
factor. -/
theorem interpolate_constant_values (gt : Tensor4) (s : ℚ)
    (hconst : ∀ b c y x, gt.data b c y x = gt.data b c 0 0) :
    ∀ b c y x, (interpolate gt s).data b c y x = gt.data b c 0 0 := by
  intro b c y x
  show lerp1 gt.H s y (fun i => lerp1 gt.W s x (fun j => gt.data b c i j))
      = gt.data b c 0 0
  simp only [lerp1, hconst]
  ring

/-- Witness for C2: a constant flow field of value 5 resized at factor
1/2 keeps the value 5. -/
theorem interpolate_constant_values_witness :
    (interpolate (constT 1 2 4 4 5) (1 / 2)).data 0 0 0 0
      = (constT 1 2 4 4 5).data 0 0 0 0 :=
  interpolate_constant_values (constT 1 2 4 4 5) (1 / 2)
    (fun _ _ _ _ => rfl) 0 0 0 0

/-- C4: when height and width scale by the same positive factor, the
downsampled ground truth produced inside the loss has the prediction's
spatial dimensions, not the ground truth's, even though the scale factor is
computed as the real-valued ratio of heights. -/
theorem scaled_gt_shape_matches_pred (pred gt : Tensor4)
    (hpos : 0 < pred.H) (hgtH : gt.H ≠ 0) (hgtW : gt.W ≠ 0)
    (hratio : (pred.W : ℚ) / (gt.W : ℚ) = (pred.H : ℚ) / (gt.H : ℚ)) :
    (interpolate gt (scaleFactorOf pred gt)).H = pred.H ∧
    (interpolate gt (scaleFactorOf pred gt)).W = pred.W :=
  interpolate_ratio_dims pred gt hgtH hgtW hratio

/-- Witness for C4: a 2x2x3x3 prediction against a 2x2x6x6 ground truth. -/
theorem scaled_gt_shape_matches_pred_witness :
    (interpolate (zeros 2 2 6 6) (scaleFactorOf (zeros 2 2 3 3) (zeros 2 2 6 6))).H
        = (zeros 2 2 3 3).H ∧
    (interpolate (zeros 2 2 6 6) (scaleFactorOf (zeros 2 2 3 3) (zeros 2 2 6 6))).W
        = (zeros 2 2 3 3).W :=
  scaled_gt_shape_matches_pred (zeros 2 2 3 3) (zeros 2 2 6 6)
    (by decide) (by decide) (by decide) rfl

/-- C5: for a single scale at the ground-truth resolution the bilinear
resize at factor 1 is the identity on the ground truth and the Multi-Scale
Loss Evaluator returns exactly the plain mean Euclidean endpoint error
between the prediction and the unmodified ground truth. -/
theorem single_scale_plain_epe (name : String) (pred gt : Tensor4)
    (hB : pred.B = gt.B) (hC : pred.C = gt.C) (hH : pred.H = gt.H)
    (hW : pred.W = gt.W) (hgtH : gt.H ≠ 0) :
    interpolate gt 1 = gt ∧
    compute_multiscale_epe_error [(name, pred)] gt
      = some (PyVal.pytensor (epeVal pred gt)) := by
  have hid : interpolate gt 1 = gt := interpolate_one gt
  refine ⟨hid, ?_⟩
  have hs : scaleFactorOf pred gt = 1 := by
    unfold scaleFactorOf
    rw [hH]
    exact div_self (Nat.cast_ne_zero.mpr hgtH)
  have hsh : shapesOk gt [(name, pred)] := by
    intro pf hpf
    rcases List.mem_singleton.mp hpf with rfl
    rw [hs, hid]
    exact ⟨hB, hC, hH, hW⟩
  rw [loss_eq_of_shapesOk gt [(name, pred)] hsh]
  simp [specMultiscaleLoss, hs, hid]

/-- Witness for C5 at a concrete 1x2x2x2 prediction and ground truth. -/
theorem single_scale_plain_epe_witness :
    interpolate (zeros 1 2 2 2) 1 = zeros 1 2 2 2 ∧
    compute_multiscale_epe_error [("flow3", zeros 1 2 2 2)] (zeros 1 2 2 2)
      = some (PyVal.pytensor (epeVal (zeros 1 2 2 2) (zeros 1 2 2 2))) :=
  single_scale_plain_epe "flow3" (zeros 1 2 2 2) (zeros 1 2 2 2)
    rfl rfl rfl rfl (by decide)

/-- C9: applied to an empty scale mapping the Multi-Scale Loss Evaluator
raises no error and returns the plain host float 0.0, a value on which
gradient backpropagation (.backward()) is unavailable. -/
theorem empty_mapping_float_zero (gt : Tensor4) :
    compute_multiscale_epe_error [] gt = some (PyVal.pyfloat 0) ∧
    PyVal.canBackward (PyVal.pyfloat 0) = false :=
  ⟨rfl, rfl⟩

end Claims

theorem shapesOk_of_full_res (gt : Tensor4) (hgtH : gt.H ≠ 0)
    (L : List (String × Tensor4))
    (hall : ∀ pf ∈ L, sameShape pf.2 gt) : shapesOk gt L := by
  intro pf hpf
  have hs : scaleFactorOf pf.2 gt = 1 := by
    unfold scaleFactorOf
    rw [(hall pf hpf).2.2.1]
    exact div_self (Nat.cast_ne_zero.mpr hgtH)
  rw [hs, interpolate_one]
  exact hall pf hpf

/-- C3 (amended): with drop_last=False, the exported array's leading
dimension equals the total number of test samples M (the sum of the batch
sizes the DataLoader yields); it equals (number of batches) x B exactly
when B divides M, so batch-size unevenness in the last batch does lower it
below N x B. -/
theorem eval_output_leading_dim (net : Tensor4 → Tensor4)
    (hnet : ∀ t, (net t).B = t.B)
    (batches : List Tensor4) (M bs : ℕ) (hbs : 0 < bs)
    (hsizes : batches.map Tensor4.B = loaderSizes M bs) :
    (evalExport net batches).B = M ∧
    ((evalExport net batches).B = batches.length * bs ↔ M % bs = 0) := by
  have hfun : (fun b => (net b).B) = Tensor4.B := funext hnet
  have hB : (evalExport net batches).B = M := by
    rw [evalExport, foldl_cat0_B, hfun, hsizes, loaderSizes_sum]
    simp [emptyFlow]
  have hlen : batches.length = M / bs + (if M % bs = 0 then 0 else 1) := by
    have hl := congrArg List.length hsizes
    rwa [List.length_map, loaderSizes_length] at hl
  refine ⟨hB, ?_⟩
  rw [hB, hlen]
  have hmodlt : M % bs < bs := Nat.mod_lt M hbs
  have hdm : bs * (M / bs) + M % bs = M := Nat.div_add_mod M bs
  by_cases h : M % bs = 0
  · rw [if_pos h, add_zero]
    simp [Nat.div_mul_cancel (Nat.dvd_of_mod_eq_zero h), h]
  · rw [if_neg h]
    simp only [h, iff_false]
    intro hc
    rw [add_mul, one_mul, mul_comm] at hc
    omega

/-- Witness for C3 (amended) at 4 samples in 2 even batches of size 2. -/
theorem eval_output_leading_dim_witness :
    (evalExport (fun t => t) [zeros 2 2 1 1, zeros 2 2 1 1]).B = 4 ∧
    ((evalExport (fun t => t) [zeros 2 2 1 1, zeros 2 2 1 1]).B
        = [zeros 2 2 1 1, zeros 2 2 1 1].length * 2 ↔ 4 % 2 = 0) :=
  eval_output_leading_dim (fun t => t) (fun _ => rfl)
    [zeros 2 2 1 1, zeros 2 2 1 1] 4 2 (by decide) (by decide)

/-- C3 counterexample: evaluation over N = 2 batches at configured batch
size 2 with only 3 samples (drop_last=False keeps the short last batch):
the exported leading dimension is 3, not N x B = 4, so the claimed
robustness to batch-size unevenness fails. -/
theorem eval_output_leading_dim_cex :
    [zeros 2 2 1 1, zeros 1 2 1 1].map Tensor4.B = loaderSizes 3 2 ∧
    [zeros 2 2 1 1, zeros 1 2 1 1].length = 2 ∧
    (evalExport (fun t => t) [zeros 2 2 1 1, zeros 1 2 1 1]).B = 3 ∧
    (evalExport (fun t => t) [zeros 2 2 1 1, zeros 1 2 1 1]).B ≠ 2 * 2 := by
  refine ⟨?_, rfl, rfl, ?_⟩ <;> decide

/-- C6: the Multi-Scale Loss Evaluator is additive across disjoint scale
sets — for mappings A and B with disjoint key sets, the loss of the
(insertion-order-preserving dict) union A ++ B is the sum of the two
losses — and every loss value it returns is non-negative. -/
theorem multiscale_loss_additive_and_nonneg :
    (∀ (gt : Tensor4) (A B : List (String × Tensor4)),
        (∀ k ∈ A.map Prod.fst, k ∉ B.map Prod.fst) →
        shapesOk gt A → shapesOk gt B →
        ∃ x y z, compute_multiscale_epe_error A gt = some x ∧
          compute_multiscale_epe_error B gt = some y ∧
          compute_multiscale_epe_error (A ++ B) gt = some z ∧
          z.val = x.val + y.val) ∧
    (∀ (gt : Tensor4) (L : List (String × Tensor4)) (r : PyVal),
        compute_multiscale_epe_error L gt = some r → 0 ≤ r.val) := by
  constructor
  · intro gt A B hdisj hA hB
    have hAB : shapesOk gt (A ++ B) := by
      intro pf hpf
      rcases List.mem_append.mp hpf with h | h
      · exact hA pf h
      · exact hB pf h
    obtain ⟨x, hx, hxv⟩ := loss_val_of_shapesOk gt A hA
    obtain ⟨y, hy, hyv⟩ := loss_val_of_shapesOk gt B hB
    obtain ⟨z, hz, hzv⟩ := loss_val_of_shapesOk gt (A ++ B) hAB
    refine ⟨x, y, z, hx, hy, hz, ?_⟩
    rw [hxv, hyv, hzv]
    unfold specMultiscaleLoss
    rw [List.map_append, List.sum_append]
  · intro gt L r hr
    have hsh : shapesOk gt L := shapesOk_of_foldl_some gt L (PyVal.pyfloat 0) r hr
    obtain ⟨r2, hr2, hval⟩ := loss_val_of_shapesOk gt L hsh
    rw [hr] at hr2
    cases Option.some.inj hr2
    rw [hval]
    exact specMultiscaleLoss_nonneg L gt

/-- Witness for C6 at concrete disjoint single-scale mappings over a
1x2x1x1 ground truth, and at the empty mapping for non-negativity. -/
theorem multiscale_loss_additive_and_nonneg_witness :
    (∃ x y z,
      compute_multiscale_epe_error [("flow0", zeros 1 2 1 1)] (zeros 1 2 1 1)
        = some x ∧
      compute_multiscale_epe_error [("flow1", constT 1 2 1 1 3)] (zeros 1 2 1 1)
        = some y ∧
      compute_multiscale_epe_error
          ([("flow0", zeros 1 2 1 1)] ++ [("flow1", constT 1 2 1 1 3)])
          (zeros 1 2 1 1) = some z ∧
      z.val = x.val + y.val) ∧
    0 ≤ (PyVal.pyfloat 0).val := by
  refine ⟨multiscale_loss_additive_and_nonneg.1 (zeros 1 2 1 1) _ _ ?_ ?_ ?_,
    multiscale_loss_additive_and_nonneg.2 (zeros 1 2 1 1) [] (PyVal.pyfloat 0) rfl⟩
  · decide
  · exact shapesOk_of_full_res _ (by decide) _ (fun pf hpf => by
      rcases List.mem_singleton.mp hpf with rfl
      exact ⟨rfl, rfl, rfl, rfl⟩)
  · exact shapesOk_of_full_res _ (by decide) _ (fun pf hpf => by
      rcases List.mem_singleton.mp hpf with rfl
      exact ⟨rfl, rfl, rfl, rfl⟩)

/-- C7: for every epoch the controller starts a zero epoch accumulator, adds
each batch's scalar loss after the per-batch update, reports the mean loss
accumulator / number-of-batches after the last batch, and then advances the
StepLR schedule by exactly one step, so that after the configured E epochs
exactly E scheduler steps have happened and the learning rate is
lr0 * 0.1 ^ (E / 10). -/
theorem training_loop_behavior {P β : Type} (upd : P → β → P × ℝ)
    (batches : List β) (p0 : P) (lr0 : ℝ) (E : ℕ) :
    (runTraining upd batches p0 lr0 E).reports
      = (List.range E).map (fun k =>
          (epochLosses upd (runTraining upd batches p0 lr0 k).params batches).sum
            / (batches.length : ℝ)) ∧
    (runTraining upd batches p0 lr0 E).sched.last_epoch = E ∧
    (runTraining upd batches p0 lr0 E).sched.lr = lr0 * (1 / 10) ^ (E / 10) := by
  induction E with
  | zero => simp [runTraining]
  | succ E ih =>
    obtain ⟨hrep, hlast, hlr⟩ := ih
    refine ⟨?_, ?_, ?_⟩
    · show (runTraining upd batches p0 lr0 E).reports
          ++ [(runEpoch upd (runTraining upd batches p0 lr0 E).params batches).2
                / (batches.length : ℝ)] = _
      rw [hrep, List.range_succ, List.map_append, runEpoch_snd]
      rfl
    · show (schedStep (runTraining upd batches p0 lr0 E).sched).last_epoch = E + 1
      unfold schedStep
      rw [hlast]
    · show (schedStep (runTraining upd batches p0 lr0 E).sched).lr
          = lr0 * (1 / 10) ^ ((E + 1) / 10)
      unfold schedStep
      rw [hlast, hlr]
      by_cases h : (E + 1) % 10 = 0
      · rw [if_pos h]
        have hq : (E + 1) / 10 = E / 10 + 1 := by omega
        rw [hq, pow_succ]
        ring
      · rw [if_neg h]
        have hq : (E + 1) / 10 = E / 10 := by omega
        rw [hq]

/-- C8: with the configured epoch count 0 the training loop body never runs
(the state is independent of the model/optimizer update and the scheduler
never steps), yet the run still writes a checkpoint of the (untouched)
parameters, reloads it, and evaluation proceeds on them. -/
theorem zero_epochs_run {P β : Type} (upd upd2 : P → β → P × ℝ)
    (trainBatches : List β) (p0 : P) (lr0 : ℝ)
    (net : P → Tensor4 → Tensor4) (testBatches : List Tensor4) :
    runTraining upd trainBatches p0 lr0 0 = ⟨p0, ⟨0, lr0⟩, []⟩ ∧
    mainRun upd trainBatches p0 lr0 0 net testBatches
      = (torchSave p0, evalExport (net (torchLoad (torchSave p0))) testBatches) ∧
    mainRun upd trainBatches p0 lr0 0 net testBatches
      = mainRun upd2 trainBatches p0 lr0 0 net testBatches :=
  ⟨rfl, rfl, rfl⟩

/-- C10 (amended): the loss derives each scale's resize factor solely from
the height ratio (changing the ground-truth width leaves it unchanged), and
equality of the width ratio with the height ratio is a sufficient
precondition for every elementwise subtraction in the loss to be
well-formed; by the counterexample it is not a necessary one. -/
theorem height_ratio_sufficient (name : String) (pred gt : Tensor4)
    (hB : pred.B = gt.B) (hC : pred.C = gt.C)
    (hgtH : gt.H ≠ 0) (hgtW : gt.W ≠ 0)
    (hratio : (pred.W : ℚ) / (gt.W : ℚ) = (pred.H : ℚ) / (gt.H : ℚ)) :
    (∀ w2 : ℕ, scaleFactorOf pred ⟨gt.B, gt.C, gt.H, w2, gt.data⟩
        = scaleFactorOf pred gt) ∧
    (compute_multiscale_epe_error [(name, pred)] gt).isSome = true := by
  refine ⟨fun w2 => rfl, ?_⟩
  obtain ⟨hH, hW⟩ := interpolate_ratio_dims pred gt hgtH hgtW hratio
  have hsh : shapesOk gt [(name, pred)] := by
    intro pf hpf
    rcases List.mem_singleton.mp hpf with rfl
    exact ⟨hB, hC, hH.symm, hW.symm⟩
  rw [loss_eq_of_shapesOk gt [(name, pred)] hsh]
  rfl

/-- Witness for C10 (amended): a 1x2x2x2 prediction against a 1x2x4x4
ground truth, equal width and height ratios. -/
theorem height_ratio_sufficient_witness :
    (∀ w2 : ℕ, scaleFactorOf (zeros 1 2 2 2) ⟨1, 2, 4, w2, (zeros 1 2 4 4).data⟩
        = scaleFactorOf (zeros 1 2 2 2) (zeros 1 2 4 4)) ∧
    (compute_multiscale_epe_error [("flow2", zeros 1 2 2 2)]
        (zeros 1 2 4 4)).isSome = true :=
  height_ratio_sufficient "flow2" (zeros 1 2 2 2) (zeros 1 2 4 4)
    rfl rfl (by decide) (by decide) rfl

/-- C10 counterexample: a 1x2x2x1 prediction against a 1x2x4x3 ground
truth: the resized ground truth happens to match the prediction's shape
(floor(3 * 2/4) = 1), so the subtraction succeeds and the loss returns a
value, although the width ratio 1/3 differs from the height ratio 2/4 —
the claimed equivalence fails in this direction. -/
theorem height_ratio_not_necessary :
    (compute_multiscale_epe_error [("flow0", predT10)] gtT10).isSome = true ∧
    (predT10.W : ℚ) / (gtT10.W : ℚ) ≠ (predT10.H : ℚ) / (gtT10.H : ℚ) := by
  constructor
  · have hH : (interpolate gtT10 (scaleFactorOf predT10 gtT10)).H = 2 := by
      show ⌊((gtT10.H : ℕ) : ℚ) * scaleFactorOf predT10 gtT10⌋₊ = 2
      have h1 : ((gtT10.H : ℕ) : ℚ) * scaleFactorOf predT10 gtT10
          = ((2 : ℕ) : ℚ) / ((1 : ℕ) : ℚ) := by
        show ((4 : ℕ) : ℚ) * (((2 : ℕ) : ℚ) / ((4 : ℕ) : ℚ)) = _
        norm_num
      rw [h1, Rat.natFloor_natCast_div_natCast]
    have hW : (interpolate gtT10 (scaleFactorOf predT10 gtT10)).W = 1 := by
      show ⌊((gtT10.W : ℕ) : ℚ) * scaleFactorOf predT10 gtT10⌋₊ = 1
      have h2 : ((gtT10.W : ℕ) : ℚ) * scaleFactorOf predT10 gtT10
          = ((3 : ℕ) : ℚ) / ((2 : ℕ) : ℚ) := by
        show ((3 : ℕ) : ℚ) * (((2 : ℕ) : ℚ) / ((4 : ℕ) : ℚ)) = _
        norm_num
      rw [h2, Rat.natFloor_natCast_div_natCast]
    have hsh : shapesOk gtT10 [("flow0", predT10)] := by
      intro pf hpf
      rcases List.mem_singleton.mp hpf with rfl
      exact ⟨rfl, rfl, hH.symm, hW.symm⟩
    rw [loss_eq_of_shapesOk gtT10 [("flow0", predT10)] hsh]
    rfl
  · show ((1 : ℕ) : ℚ) / ((3 : ℕ) : ℚ) ≠ ((2 : ℕ) : ℚ) / ((4 : ℕ) : ℚ)
    norm_num
